import Mathlib

/-!
Shallow embedding of the webpage-summarizer bot (`src/app.py`) and proofs
about its event-processing pipeline: the retry-with-backoff executor, the
TTL deduplication cache, the link resolver, the response-normalization
logic of `summerize_text`, and the per-link / per-segment dispatch loops.

External collaborators (the OpenAI client, the Slack client, `requests`,
`json.loads`) are modelled as parameters: an operation is a function from
the attempt index to an outcome, a posting call is a function from the
post record to a result, and `json.loads` is a function from strings to
an optional parsed record (`none` standing for the stdlib raising on
invalid input).
-/

set_option maxRecDepth 100000

namespace App

/-- A Python exception, identified by its class name and message. -/
structure PyError where
  kind : String
  msg : String
deriving DecidableEq

/-- Outcome of one invocation of a fallible async operation. -/
inductive Outcome (α : Type) where
  | ok (v : α)
  | err (e : PyError)
deriving DecidableEq

/-- What the `retry` wrapper hands back to its caller: a returned value, a
propagated exception, or the implicit `None` when the loop body never runs
(`total_tries = 0`). -/
inductive RetryOutcome (α : Type) where
  | success (v : α)
  | failure (e : PyError)
  | fellThrough
deriving DecidableEq

/-- The loop of `retry.decorator.wrapper` in `src/app.py` (lines 34-45).
`i` is the Python loop index, `fuel` the remaining iterations of
`range(total_tries)` (so Python's `i == total_tries - 1` is `fuel = 0`
after this iteration), `wait_time` the current backoff delay and `waits`
the delays slept so far.  Returns the outcome, the number of invocations
performed, and the backoff delays waited between consecutive attempts. -/
def retryGo (exceptions : List String) (op : Nat → Outcome α) (backoff_factor : Rat) :
    Nat → Nat → Rat → List Rat → RetryOutcome α × Nat × List Rat
  | i, 0, _, waits => (.fellThrough, i, waits)
  | i, fuel + 1, wait_time, waits =>
    match op i with
    | .ok v => (.success v, i + 1, waits)
    | .err e =>
      if e.kind ∈ exceptions then
        if fuel = 0 then (.failure e, i + 1, waits)
        else retryGo exceptions op backoff_factor (i + 1) fuel (wait_time * backoff_factor)
          (waits ++ [wait_time])
      else (.failure e, i + 1, waits)

/-- `retry(exceptions, total_tries, initial_wait, backoff_factor)` applied
to an operation (`src/app.py` lines 31-49).  The operation is given by the
outcome of each attempt, indexed by the loop counter. -/
def retry (exceptions : List String) (total_tries : Nat) (initial_wait backoff_factor : Rat)
    (op : Nat → Outcome α) : RetryOutcome α × Nat × List Rat :=
  retryGo exceptions op backoff_factor 0 total_tries initial_wait []

/-! ### Python string helpers used by `summerize_text` -/

/-- ASCII whitespace, as stripped by Python's `str.strip()`. -/
def isPyWs (c : Char) : Bool :=
  c = ' ' || c = '\t' || c = '\n' || c = '\r' || c = '\x0b' || c = '\x0c'

/-- Python `s.strip()` (restricted to ASCII whitespace). -/
def pyStrip (s : String) : String :=
  String.mk (((s.toList.dropWhile isPyWs).reverse.dropWhile isPyWs).reverse)

/-- Python `s or d` for an optional string `s`: `None` and the empty
string are falsy and yield the default. -/
def pyOrDefault (o : Option String) (d : String) : String :=
  match o with
  | none => d
  | some s => if s = "" then d else s

/-- Python truthiness of an optional string (`if summary:` / `if body:`):
`None` and `""` are falsy. -/
def pyTruthy (o : Option String) : Bool :=
  match o with
  | none => false
  | some s => s ≠ ""

/-! ### Response normalization (`format_reply`, `summerize_text`) -/

/-- The fields the code reads off the parsed JSON object: `args.get("summary")`,
`args.get("language")`, `"body_translated" in args` / `args.get("body_translated")`. -/
structure ReplyArgs where
  summary : Option String
  language : Option String
  body_translated : Option String
deriving DecidableEq

/-- The parts of an OpenAI chat-completion message the code inspects:
`message.content` and `message.function_call` (name and raw JSON argument
string). -/
structure FunctionCall where
  name : String
  arguments : String
deriving DecidableEq

structure ChatMessage where
  content : Option String
  function_call : Option FunctionCall
deriving DecidableEq

/-- `format_reply(args, logger)` (`src/app.py` lines 62-74): always renders a
summary segment; renders the translated-body segment exactly when
`args.get("language") != "ja"` and the key `body_translated` is present. -/
def format_reply (args : ReplyArgs) : Option String × Option String :=
  let summary := "\n*要約*\n" ++ args.summary.getD "???" ++ "\n"
  let body : Option String :=
    if args.language ≠ some "ja" ∧ args.body_translated.isSome = true then
      some ("\n*日本語翻訳*\n" ++ args.body_translated.getD "???" ++ "\n")
    else none
  (some summary, body)

/-- The normalization phase of `summerize_text` (`src/app.py` lines 138-151):
from the model message to the `(summary, body)` pair, or an uncaught parse
exception.  `jsonLoads` models `json.loads` followed by the dictionary
accesses of `format_reply`: `none` stands for the stdlib raising on input
that is not a valid JSON object.  In the function-invocation branch that
parse is *not* inside a `try`, so a `none` there propagates (`.error`,
carrying the offending argument string); in the inline branch the bare
`except:` turns it into a diagnostic body. -/
def summerize_text_normalize (jsonLoads : String → Option ReplyArgs) (msg : ChatMessage) :
    Except String (Option String × Option String) :=
  let content := pyStrip (pyOrDefault msg.content "???")
  match msg.function_call with
  | some fc =>
    if fc.name = "reply_processed_text" then
      match jsonLoads fc.arguments with
      | some args => .ok (format_reply args)
      | none => .error fc.arguments
    else .ok (none, none)
  | none =>
    match jsonLoads content with
    | some args => .ok (format_reply args)
    | none => .ok (none, some ("Parse `content` failed: ```" ++ content ++ "```"))

/-- A `chat_postMessage` call as issued by `summerize_text`. -/
structure SlackPost where
  channel : String
  text : String
  thread_ts : String
  reply_broadcast : Bool
deriving DecidableEq

/-- The inbound Slack message event, with the fields the handler reads. -/
structure LinkItem where
  type : String
  url : String
deriving DecidableEq

structure RichElement where
  elements : List LinkItem
deriving DecidableEq

structure MsgBlock where
  elements : List RichElement
deriving DecidableEq

structure SlackEvent where
  channel : String
  ts : String
  event_ts : String
  has_previous_message : Bool
  blocks : List MsgBlock
deriving DecidableEq

/-- The summary post: `thread_ts=event["ts"]`, `reply_broadcast=True`. -/
def summaryPost (ev : SlackEvent) (s : String) : SlackPost :=
  ⟨ev.channel, s, ev.ts, true⟩

/-- The translated-body post: a plain thread reply, no broadcast flag. -/
def bodyPost (ev : SlackEvent) (b : String) : SlackPost :=
  ⟨ev.channel, b, ev.ts, false⟩

/-- The posting phase of `summerize_text` (`src/app.py` lines 153-169):
`if summary: await chat_post_message(...)` then `if body: await
chat_post_message(...)`, sequentially, with no exception handling — an
error from the first post propagates before the second is attempted.
`post` gives the outcome of each Slack call (after its own retry layer);
returns the calls actually issued and the propagated error, if any. -/
def summerize_text_posts (post : SlackPost → Except PyError Unit) (ev : SlackEvent)
    (summary body : Option String) : List SlackPost × Option PyError :=
  if pyTruthy summary then
    match post (summaryPost ev (summary.getD "")) with
    | .error e => ([summaryPost ev (summary.getD "")], some e)
    | .ok _ =>
      if pyTruthy body then
        match post (bodyPost ev (body.getD "")) with
        | .error e => ([summaryPost ev (summary.getD ""), bodyPost ev (body.getD "")], some e)
        | .ok _ => ([summaryPost ev (summary.getD ""), bodyPost ev (body.getD "")], none)
      else ([summaryPost ev (summary.getD "")], none)
  else
    if pyTruthy body then
      match post (bodyPost ev (body.getD "")) with
      | .error e => ([bodyPost ev (body.getD "")], some e)
      | .ok _ => ([bodyPost ev (body.getD "")], none)
    else ([], none)

/-! ### Link resolver (`process_link`, `src/app.py` lines 175-186)

The rewrite uses `urllib.parse.urlparse` and `urllib.parse.parse_qs` from
the Python standard library; those are embedded below to the extent the
resolver exercises them: query extraction, `&`/`=` splitting with the
default `keep_blank_values=False`, `+` → space replacement, and percent
decoding (`unquote`) with UTF-8 byte decoding, replacement character on
malformed sequences. -/

/-- Value of a hex digit, as accepted by `urllib.parse._hextobyte`
(both cases). -/
def hexDigitVal (c : Char) : Option Nat :=
  if '0' ≤ c ∧ c ≤ '9' then some (c.toNat - '0'.toNat)
  else if 'a' ≤ c ∧ c ≤ 'f' then some (c.toNat - 'a'.toNat + 10)
  else if 'A' ≤ c ∧ c ≤ 'F' then some (c.toNat - 'A'.toNat + 10)
  else none

/-- One token of the percent-decoding pass: a raw byte (from a `%XX`
escape or a literal ASCII character) or a literal non-ASCII character,
which `unquote` passes through untouched. -/
inductive QToken where
  | byte (b : Nat)
  | chr (c : Char)
deriving DecidableEq

/-- The percent-decoding pass of `urllib.parse.unquote`: `%XX` with two
hex digits becomes a byte; a `%` not followed by two hex digits stays
literal; ASCII characters become bytes (they participate in UTF-8
decoding of adjacent escapes); non-ASCII characters pass through. -/
def percentTokens : List Char → List QToken
  | [] => []
  | '%' :: c1 :: c2 :: rest =>
    match hexDigitVal c1, hexDigitVal c2 with
    | some h1, some h2 => .byte (h1 * 16 + h2) :: percentTokens rest
    | _, _ => .byte '%'.toNat :: percentTokens (c1 :: c2 :: rest)
  | c :: rest =>
    if c.toNat < 0x80 then .byte c.toNat :: percentTokens rest
    else .chr c :: percentTokens rest

/-- UTF-8 continuation byte. -/
def utf8Cont (b : Nat) : Bool := 0x80 ≤ b && b ≤ 0xBF

/-- Admissible first continuation byte after a three-byte leader
(rules out overlong encodings and surrogates, as CPython's strict
UTF-8 decoder does). -/
def utf8Cont3 (b b2 : Nat) : Bool :=
  if b = 0xE0 then 0xA0 ≤ b2 && b2 ≤ 0xBF
  else if b = 0xED then 0x80 ≤ b2 && b2 ≤ 0x9F
  else utf8Cont b2

/-- Admissible first continuation byte after a four-byte leader. -/
def utf8Cont4 (b b2 : Nat) : Bool :=
  if b = 0xF0 then 0x90 ≤ b2 && b2 ≤ 0xBF
  else if b = 0xF4 then 0x80 ≤ b2 && b2 ≤ 0x8F
  else utf8Cont b2

/-- UTF-8 decoding of a byte run with `errors="replace"`: each maximal
malformed prefix yields one U+FFFD and decoding resumes at the offending
byte. -/
def utf8DecodeReplace : List Nat → List Char
  | [] => []
  | b :: rest =>
    if b < 0x80 then Char.ofNat b :: utf8DecodeReplace rest
    else if 0xC2 ≤ b ∧ b ≤ 0xDF then
      match rest with
      | [] => ['�']
      | b2 :: rest2 =>
        if utf8Cont b2 then
          Char.ofNat ((b - 0xC0) * 0x40 + (b2 - 0x80)) :: utf8DecodeReplace rest2
        else '�' :: utf8DecodeReplace (b2 :: rest2)
    else if 0xE0 ≤ b ∧ b ≤ 0xEF then
      match rest with
      | [] => ['�']
      | b2 :: rest2 =>
        if utf8Cont3 b b2 then
          match rest2 with
          | [] => ['�']
          | b3 :: rest3 =>
            if utf8Cont b3 then
              Char.ofNat ((b - 0xE0) * 0x1000 + (b2 - 0x80) * 0x40 + (b3 - 0x80)) ::
                utf8DecodeReplace rest3
            else '�' :: utf8DecodeReplace (b3 :: rest3)
        else '�' :: utf8DecodeReplace (b2 :: rest2)
    else if 0xF0 ≤ b ∧ b ≤ 0xF4 then
      match rest with
      | [] => ['�']
      | b2 :: rest2 =>
        if utf8Cont4 b b2 then
          match rest2 with
          | [] => ['�']
          | b3 :: rest3 =>
            if utf8Cont b3 then
              match rest3 with
              | [] => ['�']
              | b4 :: rest4 =>
                if utf8Cont b4 then
                  Char.ofNat ((b - 0xF0) * 0x40000 + (b2 - 0x80) * 0x1000 +
                    (b3 - 0x80) * 0x40 + (b4 - 0x80)) :: utf8DecodeReplace rest4
                else '�' :: utf8DecodeReplace (b4 :: rest4)
            else '�' :: utf8DecodeReplace (b3 :: rest3)
        else '�' :: utf8DecodeReplace (b2 :: rest2)
    else '�' :: utf8DecodeReplace rest

/-- Decode the token stream: maximal byte runs (reassembled through the
accumulator, kept reversed) are UTF-8-decoded together; literal
characters separate the runs. -/
def tokensDecodeAux : List Nat → List QToken → List Char
  | acc, [] => utf8DecodeReplace acc.reverse
  | acc, .byte b :: rest => tokensDecodeAux (b :: acc) rest
  | acc, .chr c :: rest => utf8DecodeReplace acc.reverse ++ c :: tokensDecodeAux [] rest

/-- `urllib.parse.unquote(s)` with the default UTF-8 / replace policy. -/
def pyUnquote (s : String) : String :=
  String.mk (tokensDecodeAux [] (percentTokens s.toList))

/-- Python `s.replace(a, b)` for single characters. -/
def pyReplaceChar (a b : Char) (s : String) : String :=
  String.mk (s.toList.map fun c => if c = a then b else c)

/-- `unquote(nv.replace('+', ' '))` as applied by `parse_qsl` to each
name and value. -/
def pyUnquotePlus (s : String) : String :=
  pyUnquote (pyReplaceChar '+' ' ' s)

/-- Python `str.split(sep)` on a single-character separator (never
returns an empty list; splitting the empty string gives `[""]`). -/
def splitOnChar (sep : Char) : List Char → List (List Char)
  | [] => [[]]
  | c :: rest =>
    let r := splitOnChar sep rest
    if c = sep then [] :: r
    else
      match r with
      | g :: gs => (c :: g) :: gs
      | [] => [[c]]

/-- Python `s.split('=', 1)`: split at the first `=` only; `none` when
there is no `=`. -/
def splitFirstEq : List Char → Option (List Char × List Char)
  | [] => none
  | '=' :: rest => some ([], rest)
  | c :: rest => (splitFirstEq rest).map fun p => (c :: p.1, p.2)

/-- `urllib.parse.parse_qsl(qs)` with the default arguments
(`keep_blank_values=False`, separator `&`): empty chunks, chunks without
`=` and chunks with an empty value are skipped; names and values get `+`
replaced by space and are percent-decoded. -/
def pyParseQsl (qs : String) : List (String × String) :=
  (splitOnChar '&' qs.toList).foldr
    (fun nv acc =>
      if nv = [] then acc
      else
        match splitFirstEq nv with
        | none => acc
        | some (n, v) =>
          if v = [] then acc
          else (pyUnquotePlus (String.mk n), pyUnquotePlus (String.mk v)) :: acc)
    []

/-- One step of building the `parse_qs` dictionary: append the value to
the entry of the name, keeping insertion order, creating it if absent. -/
def addPair (d : List (String × List String)) (nv : String × String) :
    List (String × List String) :=
  match d with
  | [] => [(nv.1, [nv.2])]
  | (n, vs) :: rest =>
    if n = nv.1 then (n, vs ++ [nv.2]) :: rest else (n, vs) :: addPair rest nv

/-- `urllib.parse.parse_qs(qs)`: the multi-valued dictionary, as an
insertion-ordered association list. -/
def pyParseQs (qs : String) : List (String × List String) :=
  (pyParseQsl qs).foldl addPair []

/-- Python `dict.get`. -/
def dictGet (d : List (String × List String)) (k : String) : Option (List String) :=
  (d.find? fun e => e.1 == k).map (·.2)

/-- The URL rewrite at the top of `process_link` (`src/app.py` lines
175-186): if the URL starts with `https://www.google.com/url?`, parse the
query string (the part after the first `?`, fragment removed, as
`urlparse` yields for URLs of this shape) and, if a `url` parameter is
present with a truthy (non-empty) value list, return its first value;
otherwise return the input unchanged. -/
def pyUrlparseQuery (url : String) : String :=
  let defrag := url.toList.takeWhile (fun c => c != '#')
  match defrag.dropWhile (fun c => c != '?') with
  | [] => ""
  | _ :: rest => String.mk rest

/-- Python `s.startswith(pre)`, on the underlying character lists. -/
def strHasPre : List Char → List Char → Bool
  | _, [] => true
  | [], _ :: _ => false
  | c :: cs, p :: ps => c == p && strHasPre cs ps

def pyStartsWith (s pre : String) : Bool := strHasPre s.toList pre.toList

def process_link_resolve (url : String) : String :=
  if pyStartsWith url "https://www.google.com/url?" then
    let query_params := pyParseQs (pyUrlparseQuery url)
    match dictGet query_params "url" with
    | some (v :: _) => v
    | some [] => url
    | none => url
  else url

/-! ### Deduplication cache and event router (`handle_message_events`)

`processed_ids = TTLCache(maxsize=100, ttl=60)` from `cachetools`: entries
carry their insertion time; membership requires the entry to be alive
(`now < inserted + ttl`); insertion first drops expired entries, then
appends, then evicts oldest-inserted entries while over capacity.  Time is
passed explicitly. -/

structure TTLCacheState (κ : Type) where
  maxsize : Nat
  ttl : Nat
  entries : List (κ × Nat)
deriving DecidableEq

/-- An entry is alive at time `t` (cachetools: `timer() < link.expires`
with `expires = inserted + ttl`). -/
def entryAlive (ttl t : Nat) (e : κ × Nat) : Bool := decide (t < e.2 + ttl)

/-- `key in cache` for a `TTLCache`: present and not expired. -/
def cacheContains [DecidableEq κ] (c : TTLCacheState κ) (k : κ) (t : Nat) : Bool :=
  c.entries.any fun e => decide (e.1 = k) && entryAlive c.ttl t e

/-- The `expire` step run by `TTLCache.__setitem__`: drop dead entries. -/
def cacheExpire (c : TTLCacheState κ) (t : Nat) : TTLCacheState κ :=
  { c with entries := c.entries.filter (entryAlive c.ttl t) }

/-- `cache[key] = True`: expire, append at the end (freshest expiry),
then evict oldest-inserted entries while over `maxsize`. -/
def cacheInsert (c : TTLCacheState κ) (k : κ) (t : Nat) : TTLCacheState κ :=
  { maxsize := c.maxsize, ttl := c.ttl,
    entries := ((cacheExpire c t).entries ++ [(k, t)]).drop
      (((cacheExpire c t).entries ++ [(k, t)]).length - c.maxsize) }

/-- The deduplication gate of `handle_message_events` (`src/app.py` lines
212-215): `if message_id in processed_ids: return` / `processed_ids[message_id] = True`.
Returns whether the event should be processed together with the cache
state in force while it is processed. -/
def shouldProcess [DecidableEq κ] (c : TTLCacheState κ) (k : κ) (t : Nat) :
    Bool × TTLCacheState κ :=
  if cacheContains c k t then (false, c) else (true, cacheInsert c k t)

/-- Run a sequence of gate calls `(key, time)`, returning the final state. -/
def runGate [DecidableEq κ] (c : TTLCacheState κ) : List (κ × Nat) → TTLCacheState κ
  | [] => c
  | (k, t) :: rest => runGate (shouldProcess c k t).2 rest

/-- The results of a sequence of gate calls. -/
def gateResults [DecidableEq κ] (c : TTLCacheState κ) : List (κ × Nat) → List Bool
  | [] => []
  | (k, t) :: rest =>
    (shouldProcess c k t).1 :: gateResults (shouldProcess c k t).2 rest

/-- The module-level cache: `TTLCache(maxsize=100, ttl=60)`, initially empty. -/
def processed_ids : TTLCacheState String := ⟨100, 60, []⟩

/-- `message_id = event["channel"] + "." + event["event_ts"]`. -/
def message_id (channel event_ts : String) : String := channel ++ "." ++ event_ts

/-- The link walk of `handle_message_events` (`src/app.py` lines 220-224):
`blocks → elements → elements`, keeping items of type `"link"`, in
traversal order. -/
def extractLinks (ev : SlackEvent) : List String :=
  ev.blocks.flatMap fun b =>
    b.elements.flatMap fun el =>
      (el.elements.filter fun it => it.type == "link").map (·.url)

/-- The per-link loop: `await process_link(...)` for each link in order,
with no exception handling, so the first failure propagates and ends the
loop.  `runLink` gives each link's pipeline outcome (resolve, fetch,
extract, summarize, post).  Returns the links whose processing was
started, and the propagated error if any. -/
def processLinks (runLink : String → Except PyError Unit) :
    List String → List String × Option PyError
  | [] => ([], none)
  | u :: rest =>
    match runLink u with
    | .ok _ =>
      let r := processLinks runLink rest
      (u :: r.1, r.2)
    | .error e => ([u], some e)

/-- `handle_message_events` (`src/app.py` lines 201-224): skip preview
edits (`previous_message`), run the dedup gate, then process every
extracted link.  Returns the new cache state, the links whose processing
was started, and the propagated error if any. -/
def handle_message_events (runLink : String → Except PyError Unit)
    (c : TTLCacheState String) (ev : SlackEvent) (t : Nat) :
    TTLCacheState String × List String × Option PyError :=
  if ev.has_previous_message then (c, [], none)
  else
    let r := shouldProcess c (message_id ev.channel ev.event_ts) t
    if r.1 then
      let pl := processLinks runLink (extractLinks ev)
      (r.2, pl.1, pl.2)
    else (r.2, [], none)

/-! ### Concrete fixtures used by witnesses and counterexamples -/

/-- An operation failing on every attempt with the retryable OpenAI kind. -/
def opAlwaysFail : Nat → Outcome Unit := fun _ => .err ⟨"OpenAIError", "rate limited"⟩

/-- An operation failing on the first attempt with a non-retryable kind. -/
def opFailOther : Nat → Outcome Unit := fun _ => .err ⟨"ValueError", "bad input"⟩

/-- `json.loads` on strings that are not valid JSON objects (e.g. `"oops"`
or `"not json"`), where the stdlib raises. -/
def jsonLoadsFail : String → Option ReplyArgs := fun _ => none

/-- A parser fixture returning the spec's English example for `"ARGS"` and
the same-language example for `"JA"`. -/
def jsonLoadsFixture : String → Option ReplyArgs := fun s =>
  if s = "ARGS" then some ⟨some "S", some "en", some "T"⟩
  else if s = "JA" then some ⟨some "S2", some "ja", some "T2"⟩
  else none

/-- A function-invocation message whose argument payload is not valid JSON. -/
def msgBadFunctionArgs : ChatMessage := ⟨some "x", some ⟨"reply_processed_text", "oops"⟩⟩

/-- An inline message whose content is not valid JSON. -/
def msgBadInline : ChatMessage := ⟨some "not json", none⟩

/-- A function-invocation message with an unrecognized function name. -/
def msgOtherFunction : ChatMessage := ⟨some "x", some ⟨"other_function", "{}"⟩⟩

/-- A Slack posting layer in which the broadcast (summary) post fails with
the platform error and plain thread replies succeed. -/
def postFailBroadcast : SlackPost → Except PyError Unit := fun p =>
  if p.reply_broadcast then .error ⟨"SlackApiError", "rate limited"⟩ else .ok ()

/-- A concrete event fixture (no links). -/
def evFixture : SlackEvent := ⟨"C1", "111.222", "111.222", false, []⟩

/-- An event carrying two links. -/
def evTwoLinks : SlackEvent :=
  ⟨"C1", "1.0", "1.0", false,
    [⟨[⟨[⟨"link", "https://a.example/"⟩, ⟨"link", "https://b.example/"⟩]⟩]⟩]⟩

/-- A per-link pipeline in which fetching the first of the two links fails. -/
def runLinkFailA : String → Except PyError Unit := fun u =>
  if u == "https://a.example/" then .error ⟨"ConnectionError", "fetch failed"⟩ else .ok ()

/-- One hundred gate calls with pairwise distinct dedup keys (all distinct
from `message_id "C" "1"`), arriving at time 0. -/
def evictCalls : List (String × Nat) :=
  (List.range 100).map fun i => (message_id "C" (Nat.repr (i + 2)), 0)

/-! ### Retry executor: lemmas and claims C1, C7 -/

/-- Closed form of the retry loop on an operation failing every attempt
with a retryable kind: all `fuel + 1` remaining attempts are performed,
the last error propagates, and the geometric backoff delays accumulate. -/
theorem retryGo_always_fail {α : Type} (exceptions : List String) (op : Nat → Outcome α)
    (backoff_factor : Rat) (errs : Nat → PyError)
    (hop : ∀ j, op j = .err (errs j)) (hexc : ∀ j, (errs j).kind ∈ exceptions) :
    ∀ (fuel i : Nat) (wait : Rat) (waits : List Rat),
      retryGo exceptions op backoff_factor i (fuel + 1) wait waits =
        (.failure (errs (i + fuel)), i + fuel + 1,
          waits ++ (List.range fuel).map fun j => wait * backoff_factor ^ j) := by
  intro fuel
  induction fuel with
  | zero =>
    intro i wait waits
    simp [retryGo, hop i, if_pos (hexc i)]
  | succ f ih =>
    intro i wait waits
    rw [retryGo]
    rw [hop i]
    simp only [if_pos (hexc i), Nat.succ_ne_zero, if_false]
    rw [ih (i + 1) (wait * backoff_factor) (waits ++ [wait])]
    refine congrArg₂ _ (by rw [show i + 1 + f = i + (f + 1) by omega]) ?_
    refine congrArg₂ _ (by omega) ?_
    rw [List.append_assoc]
    refine congrArg _ ?_
    rw [List.range_succ_eq_map, List.map_cons, List.map_map]
    simp only [List.singleton_append, pow_zero, mul_one]
    refine congrArg _ ?_
    refine List.map_congr_left fun j _ => ?_
    simp only [Function.comp_apply, pow_succ]
    ring

/-- C1: with `maxAttempts = total_tries ≥ 1` and an operation failing on
every invocation with a retryable kind, `retry` performs exactly
`total_tries` invocations, then propagates the final attempt's error
unchanged (same kind and message); the delays waited between consecutive
attempts are `initial_wait * backoff_factor ^ j` for
`j < total_tries - 1`, a non-decreasing sequence when
`backoff_factor ≥ 1` and `initial_wait ≥ 0`. -/
theorem retry_retryable_exhausts_attempts {α : Type} (exceptions : List String)
    (total_tries : Nat) (initial_wait backoff_factor : Rat)
    (op : Nat → Outcome α) (errs : Nat → PyError)
    (htotal : 1 ≤ total_tries)
    (hop : ∀ j, op j = .err (errs j)) (hexc : ∀ j, (errs j).kind ∈ exceptions)
    (hb : 1 ≤ backoff_factor) (hw : 0 ≤ initial_wait) :
    retry exceptions total_tries initial_wait backoff_factor op =
      (.failure (errs (total_tries - 1)), total_tries,
        (List.range (total_tries - 1)).map fun j => initial_wait * backoff_factor ^ j) ∧
    List.Chain' (· ≤ ·)
      ((List.range (total_tries - 1)).map fun j => initial_wait * backoff_factor ^ j) := by
  constructor
  · obtain ⟨fuel, rfl⟩ : ∃ fuel, total_tries = fuel + 1 := ⟨total_tries - 1, by omega⟩
    unfold retry
    rw [retryGo_always_fail exceptions op backoff_factor errs hop hexc fuel 0 initial_wait []]
    simp
  · rw [List.chain'_map]
    rcases Nat.eq_zero_or_pos (total_tries - 1) with h0 | hpos
    · rw [h0]
      exact List.chain'_nil
    · obtain ⟨n, hn⟩ : ∃ n, total_tries - 1 = n + 1 := ⟨total_tries - 2, by omega⟩
      rw [hn, List.chain'_range_succ]
      intro m _
      exact mul_le_mul_of_nonneg_left
        (pow_le_pow_right₀ hb (Nat.le_succ m)) hw

/-- Witness for C1 at the repository's OpenAI policy shape
(`total_tries=3, initial_wait=1, backoff_factor=2`). -/
theorem retry_retryable_exhausts_attempts_witness :
    retry ["OpenAIError"] 3 1 2 opAlwaysFail =
      (.failure ⟨"OpenAIError", "rate limited"⟩, 3,
        (List.range 2).map fun j => (1 : Rat) * 2 ^ j) ∧
    List.Chain' (· ≤ ·) ((List.range 2).map fun j => (1 : Rat) * 2 ^ j) :=
  retry_retryable_exhausts_attempts ["OpenAIError"] 3 1 2 opAlwaysFail
    (fun _ => ⟨"OpenAIError", "rate limited"⟩) (by decide) (fun _ => rfl)
    (fun _ => List.Mem.head _) (by norm_num) (by norm_num)

/-- C7: an operation whose first invocation fails with a kind outside the
retryable set is invoked exactly once; the error propagates immediately,
with no backoff delay. -/
theorem retry_nonretryable_single_attempt {α : Type} (exceptions : List String)
    (total_tries : Nat) (initial_wait backoff_factor : Rat)
    (op : Nat → Outcome α) (e : PyError)
    (htotal : 1 ≤ total_tries) (hop : op 0 = .err e) (hexc : e.kind ∉ exceptions) :
    retry exceptions total_tries initial_wait backoff_factor op = (.failure e, 1, []) := by
  obtain ⟨fuel, rfl⟩ : ∃ fuel, total_tries = fuel + 1 := ⟨total_tries - 1, by omega⟩
  unfold retry
  rw [retryGo]
  rw [hop]
  simp [if_neg hexc]

/-- Witness for C7: a `ValueError` against the OpenAI retry policy. -/
theorem retry_nonretryable_single_attempt_witness :
    retry ["OpenAIError"] 3 1 2 opFailOther = (.failure ⟨"ValueError", "bad input"⟩, 1, []) :=
  retry_nonretryable_single_attempt ["OpenAIError"] 3 1 2 opFailOther
    ⟨"ValueError", "bad input"⟩ (by decide) rfl (by decide)

/-! ### Response normalization: claims C3, C4, C5, C10 -/

/-- C3: for a model response successfully parsed via either path (a
`reply_processed_text` function invocation, or inline JSON content), the
reply is `format_reply args`; its summary segment is always present, and
its translated-body segment is present if and only if the detected
`language` field is not `"ja"` (an absent field compares unequal, as
Python's `args.get("language") != "ja"` does) and a `body_translated`
field was supplied. -/
theorem reply_translation_iff (jsonLoads : String → Option ReplyArgs)
    (msg : ChatMessage) (args : ReplyArgs)
    (h : (∃ fc, msg.function_call = some fc ∧ fc.name = "reply_processed_text" ∧
            jsonLoads fc.arguments = some args) ∨
         (msg.function_call = none ∧
            jsonLoads (pyStrip (pyOrDefault msg.content "???")) = some args)) :
    summerize_text_normalize jsonLoads msg = .ok (format_reply args) ∧
    (format_reply args).1.isSome = true ∧
    ((format_reply args).2.isSome = true ↔
      (args.language ≠ some "ja" ∧ args.body_translated.isSome = true)) := by
  refine ⟨?_, rfl, ?_⟩
  · rcases h with ⟨fc, hfc, hname, hparse⟩ | ⟨hfc, hparse⟩
    · simp only [summerize_text_normalize, hfc, if_pos hname, hparse]
    · simp only [summerize_text_normalize, hfc, hparse]
  · unfold format_reply
    by_cases hc : args.language ≠ some "ja" ∧ args.body_translated.isSome = true
    · simp [hc]
    · simp only [if_neg hc]
      simp [hc]

/-- Witness for C3: the spec's function-invocation example
`{summary:"S", language:"en", body_translated:"T"}` yields both segments,
and the same-language (`"ja"`) example yields only the summary segment. -/
theorem reply_translation_iff_witness :
    (summerize_text_normalize jsonLoadsFixture ⟨some "", some ⟨"reply_processed_text", "ARGS"⟩⟩ =
        .ok (format_reply ⟨some "S", some "en", some "T"⟩) ∧
      (format_reply ⟨some "S", some "en", some "T"⟩).1.isSome = true ∧
      ((format_reply ⟨some "S", some "en", some "T"⟩).2.isSome = true ↔
        ((⟨some "S", some "en", some "T"⟩ : ReplyArgs).language ≠ some "ja" ∧
          (⟨some "S", some "en", some "T"⟩ : ReplyArgs).body_translated.isSome = true))) ∧
    (summerize_text_normalize jsonLoadsFixture ⟨some "JA", none⟩ =
        .ok (format_reply ⟨some "S2", some "ja", some "T2"⟩) ∧
      (format_reply ⟨some "S2", some "ja", some "T2"⟩).1.isSome = true ∧
      ((format_reply ⟨some "S2", some "ja", some "T2"⟩).2.isSome = true ↔
        ((⟨some "S2", some "ja", some "T2"⟩ : ReplyArgs).language ≠ some "ja" ∧
          (⟨some "S2", some "ja", some "T2"⟩ : ReplyArgs).body_translated.isSome = true))) :=
  ⟨reply_translation_iff jsonLoadsFixture _ _ (.inl ⟨_, rfl, rfl, rfl⟩),
   reply_translation_iff jsonLoadsFixture _ _ (.inr ⟨rfl, rfl⟩)⟩

/-- C4: a response with no function-invocation signal whose content fails
to parse yields — locally, without propagating any error — a reply with no
summary segment and a diagnostic body that contains the literal offending
content (the stripped text handed to `json.loads`). -/
theorem parse_failure_diagnostic (jsonLoads : String → Option ReplyArgs) (msg : ChatMessage)
    (h1 : msg.function_call = none)
    (h2 : jsonLoads (pyStrip (pyOrDefault msg.content "???")) = none) :
    summerize_text_normalize jsonLoads msg =
      .ok (none, some ("Parse `content` failed: ```" ++
        pyStrip (pyOrDefault msg.content "???") ++ "```")) ∧
    ∃ before after,
      "Parse `content` failed: ```" ++ pyStrip (pyOrDefault msg.content "???") ++ "```" =
        before ++ pyStrip (pyOrDefault msg.content "???") ++ after := by
  constructor
  · simp only [summerize_text_normalize, h1, h2]
  · exact ⟨"Parse `content` failed: ```", "```", rfl⟩

/-- Witness for C4 on the unparsable inline content `"not json"`. -/
theorem parse_failure_diagnostic_witness :
    summerize_text_normalize jsonLoadsFail msgBadInline =
      .ok (none, some ("Parse `content` failed: ```" ++
        pyStrip (pyOrDefault msgBadInline.content "???") ++ "```")) ∧
    ∃ before after,
      "Parse `content` failed: ```" ++ pyStrip (pyOrDefault msgBadInline.content "???") ++ "```" =
        before ++ pyStrip (pyOrDefault msgBadInline.content "???") ++ after :=
  parse_failure_diagnostic jsonLoadsFail msgBadInline rfl rfl

/-- C5 counterexample: a function-invocation response whose argument
payload is not valid JSON makes the summarize operation itself raise
(the `json.loads` in the function-call branch is not inside a `try`), so
"never raises for a malformed model response" is false as stated. -/
theorem summarize_never_raises_counterexample :
    (summerize_text_normalize jsonLoadsFail msgBadFunctionArgs).isOk = false ∧
    summerize_text_normalize jsonLoadsFail msgBadFunctionArgs = .error "oops" := by
  constructor
  · rfl
  · rfl

/-- C5 as amended: the summarize operation raises no error of its own for
any response without a function-invocation signal (inline parse failures
are recovered locally) and for any function invocation with an
unrecognized name; but a `reply_processed_text` invocation whose argument
payload fails to parse raises that parse error to the caller. -/
theorem summarize_raises_only_on_function_args (jsonLoads : String → Option ReplyArgs)
    (msg : ChatMessage) :
    (msg.function_call = none → (summerize_text_normalize jsonLoads msg).isOk = true) ∧
    (∀ fc, msg.function_call = some fc → fc.name = "reply_processed_text" →
      jsonLoads fc.arguments = none →
      summerize_text_normalize jsonLoads msg = .error fc.arguments) ∧
    (∀ fc, msg.function_call = some fc → fc.name ≠ "reply_processed_text" →
      summerize_text_normalize jsonLoads msg = .ok (none, none)) := by
  refine ⟨?_, ?_, ?_⟩
  · intro h
    simp only [summerize_text_normalize, h]
    cases hj : jsonLoads (pyStrip (pyOrDefault msg.content "???")) <;> simp only [hj] <;> rfl
  · intro fc hfc hname hparse
    simp only [summerize_text_normalize, hfc, if_pos hname, hparse]
  · intro fc hfc hname
    simp only [summerize_text_normalize, hfc, if_neg hname]

/-- Witness for the amended C5: the inline path recovers, the
function-invocation path with bad arguments raises. -/
theorem summarize_raises_only_on_function_args_witness :
    (summerize_text_normalize jsonLoadsFail msgBadInline).isOk = true ∧
    summerize_text_normalize jsonLoadsFail msgBadFunctionArgs = .error "oops" :=
  ⟨(summarize_raises_only_on_function_args jsonLoadsFail msgBadInline).1 rfl,
   (summarize_raises_only_on_function_args jsonLoadsFail msgBadFunctionArgs).2.1
     ⟨"reply_processed_text", "oops"⟩ rfl rfl rfl⟩

/-- C10: a function-invocation response whose function name is not
`reply_processed_text` is dropped silently: normalization returns
normally with no segments at all, and the posting phase issues no Slack
call and propagates no error. -/
theorem unrecognized_function_silent_drop (jsonLoads : String → Option ReplyArgs)
    (msg : ChatMessage) (fc : FunctionCall)
    (h1 : msg.function_call = some fc) (h2 : fc.name ≠ "reply_processed_text") :
    summerize_text_normalize jsonLoads msg = .ok (none, none) ∧
    (∀ post ev, summerize_text_posts post ev none none = ([], none)) := by
  constructor
  · unfold summerize_text_normalize
    rw [h1]
    simp only [if_neg h2]
  · intro post ev
    rfl

/-- Witness for C10 on a `other_function` invocation. -/
theorem unrecognized_function_silent_drop_witness :
    summerize_text_normalize jsonLoadsFail msgOtherFunction = .ok (none, none) ∧
    (∀ post ev, summerize_text_posts post ev none none = ([], none)) :=
  unrecognized_function_silent_drop jsonLoadsFail msgOtherFunction
    ⟨"other_function", "{}"⟩ rfl (by decide)

/-! ### Per-link and per-segment dispatch: claims C8, C9 -/

/-- C8 counterexample: in an event with two links where fetching the
first fails, the second link is never processed — the exception
propagates out of the unprotected `for` loop, so per-link failures are
*not* isolated as the claim states. -/
theorem sibling_link_not_processed_counterexample :
    extractLinks evTwoLinks = ["https://a.example/", "https://b.example/"] ∧
    (handle_message_events runLinkFailA processed_ids evTwoLinks 0).2.1 =
      ["https://a.example/"] ∧
    "https://b.example/" ∉ (handle_message_events runLinkFailA processed_ids evTwoLinks 0).2.1 := by
  refine ⟨rfl, rfl, ?_⟩
  decide

/-- C8 as amended: a fetch or summarization failure on one link aborts
the remaining sibling links of the same event — the links before the
failing one are processed, the failing link's error propagates out of
the loop, and the links after it are never attempted. -/
theorem link_failure_aborts_siblings (runLink : String → Except PyError Unit)
    (pre : List String) (u : String) (rest : List String) (e : PyError)
    (hpre : ∀ v ∈ pre, runLink v = .ok ()) (hu : runLink u = .error e) :
    processLinks runLink (pre ++ u :: rest) = (pre ++ [u], some e) := by
  induction pre with
  | nil =>
    simp only [List.nil_append]
    unfold processLinks
    rw [hu]
  | cons v vs ih =>
    have hv : runLink v = .ok () := hpre v (List.mem_cons_self v vs)
    simp only [List.cons_append]
    unfold processLinks
    rw [hv]
    rw [ih fun w hw => hpre w (List.mem_cons_of_mem v hw)]

/-- Witness for the amended C8: one successful link, then the failing
one, then a sibling that is dropped. -/
theorem link_failure_aborts_siblings_witness :
    processLinks runLinkFailA
        (["https://b.example/"] ++ "https://a.example/" :: ["https://c.example/"]) =
      (["https://b.example/"] ++ ["https://a.example/"],
        some ⟨"ConnectionError", "fetch failed"⟩) :=
  link_failure_aborts_siblings runLinkFailA ["https://b.example/"] "https://a.example/"
    ["https://c.example/"] ⟨"ConnectionError", "fetch failed"⟩
    (by intro v hv; simp only [List.mem_singleton] at hv; subst hv; rfl) rfl

/-- C9 counterexample: with both a summary and a translation segment,
a failure posting the summary prevents the translation post from being
attempted — the claim's independence of segments is false as stated. -/
theorem translation_post_not_attempted_counterexample :
    (summerize_text_posts postFailBroadcast evFixture (some "S") (some "T")).1 =
      [summaryPost evFixture "S"] ∧
    bodyPost evFixture "T" ∉
      (summerize_text_posts postFailBroadcast evFixture (some "S") (some "T")).1 := by
  refine ⟨rfl, ?_⟩
  decide

/-- C9 as amended: the two segment posts are sequential and unguarded — a
failure (e.g. exhaustion of retries) on the summary post propagates
immediately and the translation post is not attempted; the translation
post is attempted once the summary post succeeds. -/
theorem summary_post_failure_blocks_translation (post : SlackPost → Except PyError Unit)
    (ev : SlackEvent) (s b : String) (hs : s ≠ "") :
    (∀ e, post (summaryPost ev s) = .error e →
      summerize_text_posts post ev (some s) (some b) = ([summaryPost ev s], some e)) ∧
    (∀ u, post (summaryPost ev s) = .ok u → b ≠ "" →
      bodyPost ev b ∈ (summerize_text_posts post ev (some s) (some b)).1) := by
  constructor
  · intro e he
    simp [summerize_text_posts, pyTruthy, hs, he]
  · intro u hok hb
    cases hp : post (bodyPost ev b) <;>
      simp [summerize_text_posts, pyTruthy, hs, hb, hok, hp]

/-- Witness for the amended C9: the broadcast summary post fails, only it
is attempted and its error propagates. -/
theorem summary_post_failure_blocks_translation_witness :
    summerize_text_posts postFailBroadcast evFixture (some "S") (some "T") =
      ([summaryPost evFixture "S"], some ⟨"SlackApiError", "rate limited"⟩) :=
  (summary_post_failure_blocks_translation postFailBroadcast evFixture "S" "T"
      (by decide)).1 ⟨"SlackApiError", "rate limited"⟩ rfl

/-! ### Link resolver: claim C6 -/

/-- Adding one pair to the `parse_qs` dictionary: the entry for `k` gains
the value exactly when the pair's name is `k`. -/
theorem dictGet_addPair (d : List (String × List String)) (p : String × String) (k : String) :
    dictGet (addPair d p) k =
      if p.1 = k then some ((dictGet d k).getD [] ++ [p.2]) else dictGet d k := by
  induction d with
  | nil =>
    by_cases hpk : p.1 = k <;> simp [addPair, dictGet, hpk]
  | cons e rest ih =>
    obtain ⟨n, vs⟩ := e
    simp only [addPair]
    by_cases hn : n = p.1
    · rw [if_pos hn]
      by_cases hpk : p.1 = k
      · have hnk : n = k := hn.trans hpk
        simp [dictGet, hnk, hpk]
      · have hnk : ¬n = k := fun h => hpk (hn ▸ h)
        simp [dictGet, hnk, hpk]
    · rw [if_neg hn]
      by_cases hnk : n = k
      · have hpk : ¬p.1 = k := fun h => hn (hnk.trans h.symm)
        simp [dictGet, hnk, hpk]
      · simp only [dictGet] at ih ⊢
        rw [List.find?_cons_of_neg (addPair rest p)
              (show ¬((n, vs).1 == k) = true by simp [hnk]),
            List.find?_cons_of_neg rest
              (show ¬((n, vs).1 == k) = true by simp [hnk])]
        exact ih

/-- Folding the pairs of `parse_qsl` into the dictionary accumulates, in
order, exactly the values whose name is `k`. -/
theorem dictGet_foldl_addPair (ps : List (String × String)) :
    ∀ (d : List (String × List String)) (k : String),
      dictGet (ps.foldl addPair d) k =
        if (ps.filter fun p => p.1 == k) = [] then dictGet d k
        else some ((dictGet d k).getD [] ++ ((ps.filter fun p => p.1 == k).map Prod.snd)) := by
  induction ps with
  | nil => intro d k; simp
  | cons p ps ih =>
    intro d k
    rw [List.foldl_cons, ih (addPair d p) k]
    by_cases hpk : p.1 = k
    · have hf : (List.filter (fun p => p.1 == k) (p :: ps)) =
          p :: List.filter (fun p => p.1 == k) ps := by
        simp [List.filter_cons, hpk]
      rw [hf]
      rw [dictGet_addPair d p k, if_pos hpk]
      by_cases hrest : (ps.filter fun q => q.1 == k) = []
      · simp [hrest]
      · simp [hrest]
    · have hf : (List.filter (fun p => p.1 == k) (p :: ps)) =
          List.filter (fun p => p.1 == k) ps := by
        simp [List.filter_cons, hpk]
      rw [hf]
      rw [dictGet_addPair d p k, if_neg hpk]

/-- `parse_qs(qs).get(k)` is `None` when no pair has name `k`, and
otherwise the values of the `k`-named pairs in order. -/
theorem dictGet_pyParseQs (qs k : String) :
    dictGet (pyParseQs qs) k =
      if ((pyParseQsl qs).filter fun p => p.1 == k) = [] then none
      else some (((pyParseQsl qs).filter fun p => p.1 == k).map Prod.snd) := by
  unfold pyParseQs
  rw [dictGet_foldl_addPair]
  by_cases h : ((pyParseQsl qs).filter fun p => p.1 == k) = [] <;> simp [h, dictGet]

/-- C6: the link resolver is a total (never-raising) transform: a URL not
matching the redirector host/path is returned unchanged; a matching URL
is returned unchanged when its (possibly malformed) query string yields
no `url` parameter, and resolves to the first `url` parameter value when
one is present. -/
theorem resolver_cases (url : String) :
    (pyStartsWith url "https://www.google.com/url?" = false →
      process_link_resolve url = url) ∧
    (pyStartsWith url "https://www.google.com/url?" = true →
      (((pyParseQsl (pyUrlparseQuery url)).filter fun p => p.1 == "url") = [] →
        process_link_resolve url = url) ∧
      (∀ v tl,
        (((pyParseQsl (pyUrlparseQuery url)).filter fun p => p.1 == "url").map Prod.snd) =
          v :: tl →
        process_link_resolve url = v)) := by
  constructor
  · intro h
    unfold process_link_resolve
    rw [h]
    rfl
  · intro h
    constructor
    · intro hempty
      unfold process_link_resolve
      rw [h]
      simp only [if_true]
      rw [dictGet_pyParseQs, if_pos hempty]
    · intro v tl hv
      unfold process_link_resolve
      rw [h]
      simp only [if_true]
      rw [dictGet_pyParseQs]
      have hne : ¬((pyParseQsl (pyUrlparseQuery url)).filter fun p => p.1 == "url") = [] := by
        intro hc
        rw [hc] at hv
        exact List.noConfusion hv
      rw [if_neg hne, hv]

/-- Witness for C6: the spec's redirector example resolves to the decoded
target, and a URL with a different host, a matching URL without a `url`
parameter, and a matching URL with an empty `url` value are all returned
unchanged. -/
theorem resolver_cases_witness :
    (0 < (1 : Nat) ∧
      process_link_resolve "https://www.google.com/url?url=https%3A%2F%2Fexample.com%2Fpage" =
        "https://example.com/page") ∧
    process_link_resolve "https://example.com/other" = "https://example.com/other" ∧
    process_link_resolve "https://www.google.com/url?q=x" = "https://www.google.com/url?q=x" ∧
    process_link_resolve "https://www.google.com/url?url=" = "https://www.google.com/url?url=" := by
  refine ⟨⟨Nat.one_pos, ?_⟩, ?_, ?_, ?_⟩
  · exact (resolver_cases
      "https://www.google.com/url?url=https%3A%2F%2Fexample.com%2Fpage").2 (by decide) |>.2
      "https://example.com/page" [] (by decide)
  · exact (resolver_cases "https://example.com/other").1 (by decide)
  · exact (resolver_cases "https://www.google.com/url?q=x").2 (by decide) |>.1 (by decide)
  · exact (resolver_cases "https://www.google.com/url?url=").2 (by decide) |>.1 (by decide)

/-! ### Deduplication cache: claim C2 -/

/-- The invariant carried across gate calls: the cache fields are
unchanged, the cache is within capacity, and the key inserted at `t1` is
present with few enough entries behind it that `budget` further
insertions cannot push it to the eviction end. -/
def KeyPinned (m ttl : Nat) (c : TTLCacheState κ) (k : κ) (t1 budget : Nat) : Prop :=
  c.maxsize = m ∧ c.ttl = ttl ∧ c.entries.length ≤ m ∧
  ∃ pre post, c.entries = pre ++ (k, t1) :: post ∧ post.length + budget < m

/-- One insertion of another key preserves the pinned key (consuming one
unit of budget): expiry cannot remove it while its TTL window is open,
and eviction removes only older entries. -/
theorem cacheInsert_pinned [DecidableEq κ] {m ttl : Nat} {c : TTLCacheState κ} {k : κ}
    {t1 budget : Nat} (h : KeyPinned m ttl c k t1 (budget + 1)) (k' : κ) (t' : Nat)
    (ht : t' < t1 + ttl) : KeyPinned m ttl (cacheInsert c k' t') k t1 budget := by
  obtain ⟨hm, htl, hlen, pre, post, hent, hbud⟩ := h
  have halive : entryAlive c.ttl t' (k, t1) = true := by
    simp [entryAlive, htl, ht]
  set P := pre.filter (entryAlive c.ttl t') with hPdef
  set Q := post.filter (entryAlive c.ttl t') with hQdef
  have hPle : P.length ≤ pre.length := List.length_filter_le _ _
  have hQle : Q.length ≤ post.length := List.length_filter_le _ _
  have hclen : pre.length + post.length + 1 ≤ m := by
    rw [hent] at hlen
    simp only [List.length_append, List.length_cons] at hlen
    omega
  have hE : (cacheExpire c t').entries = P ++ (k, t1) :: Q := by
    show c.entries.filter (entryAlive c.ttl t') = _
    rw [hent]
    simp [List.filter_cons, halive, hPdef, hQdef]
  have hElen : (cacheExpire c t').entries.length = P.length + Q.length + 1 := by
    rw [hE]
    simp only [List.length_append, List.length_cons]
    omega
  have hes : (cacheExpire c t').entries ++ [(k', t')] =
      P ++ ((k, t1) :: (Q ++ [(k', t')])) := by
    rw [hE]
    simp
  have hd : ((cacheExpire c t').entries ++ [(k', t')]).length - c.maxsize ≤ P.length := by
    simp only [List.length_append, List.length_cons, List.length_nil, hElen]
    omega
  have hdrop : (cacheInsert c k' t').entries =
      P.drop (((cacheExpire c t').entries ++ [(k', t')]).length - c.maxsize) ++
        (k, t1) :: (Q ++ [(k', t')]) := by
    show ((cacheExpire c t').entries ++ [(k', t')]).drop
        (((cacheExpire c t').entries ++ [(k', t')]).length - c.maxsize) = _
    generalize hDg : ((cacheExpire c t').entries ++ [(k', t')]).length - c.maxsize = D at hd ⊢
    rw [hes]
    exact List.drop_append_of_le_length hd
  refine ⟨hm, htl, ?_, ?_⟩
  · rw [hdrop]
    simp only [List.length_append, List.length_cons, List.length_drop, List.length_nil, hElen]
    omega
  · refine ⟨_, _, hdrop, ?_⟩
    simp only [List.length_append, List.length_cons, List.length_nil]
    omega

/-- The dedup gate preserves the pinned key across any call: a suppressed
call leaves the cache unchanged, an admitted call inserts one entry. -/
theorem shouldProcess_pinned [DecidableEq κ] {m ttl : Nat} {c : TTLCacheState κ} {k k' : κ}
    {t1 t' budget : Nat} (h : KeyPinned m ttl c k t1 (budget + 1)) (ht : t' < t1 + ttl) :
    KeyPinned m ttl (shouldProcess c k' t').2 k t1 budget := by
  by_cases hc : cacheContains c k' t' = true
  · have hsp : shouldProcess c k' t' = (false, c) := by simp [shouldProcess, hc]
    rw [hsp]
    obtain ⟨hm, htl, hlen, pre, post, hent, hbud⟩ := h
    exact ⟨hm, htl, hlen, pre, post, hent, by omega⟩
  · have hsp : shouldProcess c k' t' = (true, cacheInsert c k' t') := by
      simp [shouldProcess, hc]
    rw [hsp]
    exact cacheInsert_pinned h k' t' ht

/-- Running any sequence of gate calls whose length is within the budget,
all inside the pinned key's TTL window, keeps the key pinned. -/
theorem runGate_pinned [DecidableEq κ] {m ttl : Nat} {k : κ} {t1 : Nat} :
    ∀ (mid : List (κ × Nat)) (c : TTLCacheState κ),
      KeyPinned m ttl c k t1 mid.length →
      (∀ p ∈ mid, p.2 < t1 + ttl) →
      KeyPinned m ttl (runGate c mid) k t1 0
  | [], _, h, _ => h
  | (k', t') :: rest, c, h, htimes =>
    runGate_pinned rest (shouldProcess c k' t').2
      (shouldProcess_pinned h (htimes (k', t') (List.mem_cons_self _ _)))
      (fun p hp => htimes p (List.mem_cons_of_mem _ hp))

/-- A pinned key is found by the membership test anywhere in its TTL
window. -/
theorem KeyPinned.contains_key [DecidableEq κ] {m ttl : Nat} {c : TTLCacheState κ} {k : κ}
    {t1 budget : Nat} (h : KeyPinned m ttl c k t1 budget) {t2 : Nat} (ht2 : t2 < t1 + ttl) :
    cacheContains c k t2 = true := by
  obtain ⟨hm, htl, hlen, pre, post, hent, hbud⟩ := h
  unfold cacheContains
  rw [hent, List.any_eq_true]
  refine ⟨(k, t1), List.mem_append_right _ (List.mem_cons_self _ _), ?_⟩
  simp [entryAlive, htl, ht2]

/-- Inserting a key into any within-capacity cache pins it with any
budget below the capacity. -/
theorem cacheInsert_pinned_init [DecidableEq κ] (c : TTLCacheState κ) (k : κ) (t1 : Nat)
    (n : Nat) (hn : n < c.maxsize) :
    KeyPinned c.maxsize c.ttl (cacheInsert c k t1) k t1 n := by
  have hd : ((cacheExpire c t1).entries ++ [(k, t1)]).length - c.maxsize ≤
      (cacheExpire c t1).entries.length := by
    simp only [List.length_append, List.length_cons, List.length_nil]
    omega
  refine ⟨rfl, rfl, ?_, ?_⟩
  · show (((cacheExpire c t1).entries ++ [(k, t1)]).drop
        (((cacheExpire c t1).entries ++ [(k, t1)]).length - c.maxsize)).length ≤ c.maxsize
    rw [List.length_drop]
    omega
  · refine ⟨(cacheExpire c t1).entries.drop
        (((cacheExpire c t1).entries ++ [(k, t1)]).length - c.maxsize), [], ?_, ?_⟩
    · show ((cacheExpire c t1).entries ++ [(k, t1)]).drop
          (((cacheExpire c t1).entries ++ [(k, t1)]).length - c.maxsize) = _
      exact List.drop_append_of_le_length hd
    · simpa using hn

/-- C2 as amended: if a dedup-gate call admits key `k` at `t1`, then a
second call for `k` at any `t2` inside the TTL window is suppressed,
provided fewer than `maxsize` other gate calls (each inserting at most
one entry) occur in between — capacity eviction could otherwise discard
the key, the spec's accepted eviction tradeoff.  Moreover the key is
already marked seen in the cache state in force while the admitted
event's links are processed. -/
theorem dedup_second_call_suppressed [DecidableEq κ] (c : TTLCacheState κ) (k : κ)
    (t1 t2 : Nat) (mid : List (κ × Nat))
    (hmid : mid.length < c.maxsize)
    (htimes : ∀ p ∈ mid, p.2 < t1 + c.ttl)
    (hwin : t2 < t1 + c.ttl) (httl : 0 < c.ttl)
    (h1 : (shouldProcess c k t1).1 = true) :
    (shouldProcess (runGate (shouldProcess c k t1).2 mid) k t2).1 = false ∧
    cacheContains (shouldProcess c k t1).2 k t1 = true := by
  have hc1 : cacheContains c k t1 = false := by
    cases hcb : cacheContains c k t1
    · rfl
    · exfalso
      have : shouldProcess c k t1 = (false, c) := by simp [shouldProcess, hcb]
      rw [this] at h1
      exact Bool.noConfusion h1
  have hst : shouldProcess c k t1 = (true, cacheInsert c k t1) := by
    simp [shouldProcess, hc1]
  rw [hst]
  constructor
  · have hpin := cacheInsert_pinned_init c k t1 mid.length hmid
    have hrun := runGate_pinned mid (cacheInsert c k t1) hpin htimes
    have hcont := hrun.contains_key hwin
    simp [shouldProcess, hcont]
  · exact (cacheInsert_pinned_init c k t1 0 (by omega)).contains_key (by omega)

/-- Witness for the amended C2 on the repository cache
(`maxsize=100, ttl=60`): key `C.1` admitted at `t=0`, one other event in
between, duplicate suppressed at `t=30`. -/
theorem dedup_second_call_suppressed_witness :
    (shouldProcess (runGate (shouldProcess processed_ids (message_id "C" "1") 0).2
        [(message_id "C" "2", 5)]) (message_id "C" "1") 30).1 = false ∧
    cacheContains (shouldProcess processed_ids (message_id "C" "1") 0).2
      (message_id "C" "1") 0 = true :=
  dedup_second_call_suppressed processed_ids (message_id "C" "1") 0 30
    [(message_id "C" "2", 5)] (by decide)
    (by intro p hp; simp only [List.mem_singleton] at hp; subst hp; decide)
    (by decide) (by decide) (by decide)

/-- C2 counterexample: on the repository cache (`maxsize=100, ttl=60`),
two gate calls with the identical key `message_id "C" "1"`, the second
1 second after the first (well inside the TTL window), both return
"should process" when 100 gate calls with other keys occur in between:
capacity eviction discards the key, so "at most one should-process per
TTL window" is false as stated. -/
theorem dedup_both_calls_admitted_counterexample :
    (shouldProcess processed_ids (message_id "C" "1") 0).1 = true ∧
    (shouldProcess (runGate (shouldProcess processed_ids (message_id "C" "1") 0).2
        evictCalls) (message_id "C" "1") 1).1 = true ∧
    (1 : Nat) < 0 + processed_ids.ttl := by
  refine ⟨by decide, by decide, by decide⟩

end App
